import Mathlib

/-
Verification of the configuration-resolution engine of the gin-artweb
repository (resource/mds/script/python/playbook.py and
resource/oes/script/python/playbook.py), as a shallow embedding.

Python dictionaries are modelled as association lists over string keys in
which the first matching entry is the binding (keys are unique in the real
dictionaries; `dset` keeps them unique).  YAML scalar values are modelled by
the inductive type `Value`.  The file system is abstracted into an `Env`
record holding the decoded content of each file the scripts may open
(`none` models a missing file).  Exceptions are modelled with `Except Err`;
the distinct `Err` constructors mirror the distinct Python exception sites
(AssertionError for calendar gaps / empty dates, FileNotFoundError for each
missing file, KeyError / ValueError / TypeError for dictionary and
conversion failures).
-/

/-! ## Python dictionaries as association lists -/

/-- Python dictionary lookup `d.get(k)` / `d[k]`: the binding of the first
entry with the given key. -/
def dget {α : Type} : List (String × α) → String → Option α
  | [], _ => none
  | (k, v) :: rest, key => if k = key then some v else dget rest key

/-- Python dictionary assignment `d[k] = v`: replace the binding in place if
the key is present, append it otherwise. -/
def dset {α : Type} : List (String × α) → String → α → List (String × α)
  | [], key, v => [(key, v)]
  | (k, w) :: rest, key, v =>
      if k = key then (key, v) :: rest else (k, w) :: dset rest key v

/-- Python `{**a, **b}`: start from `a` and write every entry of `b` over
it, so `b` wins on key collisions. -/
def mergeMaps {α : Type} (a b : List (String × α)) : List (String × α) :=
  b.foldl (fun acc kv => dset acc kv.1 kv.2) a

/-! ## Values of the YAML/variable universe -/

/-- A decoded YAML scalar or mapping, as Python would hold it. -/
inductive Value where
  | str : String → Value
  | int : Int → Value
  | bool : Bool → Value
  | map : List (String × Value) → Value

/-- Python `str(v)` for the values that actually reach `str` in the
scripts (ids and role names interpolated into f-strings). -/
def pyStr : Value → String
  | Value.str s => s
  | Value.int n => toString n
  | Value.bool b => cond b "True" "False"
  | Value.map _ => "dict"

abbrev VarMap := List (String × Value)

/-! ## The trading calendar -/

/-- `TrdDateList.yaml` decoded: keys of shape `trd_date_{year}_list` mapped
to integer date lists (the declared type is `Dict[str, List[int]]`). -/
abbrev TrdTable := List (String × List Int)

/-- The error taxonomy: one constructor per distinct Python raise site. -/
inductive Err where
  | invalidDate
  | calendarGap (year : Int)
  | indexErr
  | missingMonFile
  | missingMonHostFile
  | missingColonyFile
  | missingTrdFile
  | missingNodeFile
  | missingNodeHostFile
  | keyErr
  | valueErr
  | typeErr
deriving DecidableEq, Repr

instance : DecidableEq (Except Err String) := fun x y =>
  match x, y with
  | Except.ok a, Except.ok b =>
      if h : a = b then Decidable.isTrue (congrArg Except.ok h)
      else Decidable.isFalse (fun hc => h (Except.ok.inj hc))
  | Except.error a, Except.error b =>
      if h : a = b then Decidable.isTrue (congrArg Except.error h)
      else Decidable.isFalse (fun hc => h (Except.error.inj hc))
  | Except.ok _, Except.error _ => Decidable.isFalse (fun hc => Except.noConfusion hc)
  | Except.error _, Except.ok _ => Decidable.isFalse (fun hc => Except.noConfusion hc)

/-- The f-string key `f'trd_date_{the_year}_list'`. -/
def trdKey (year : Int) : String :=
  "trd_date_" ++ toString year ++ "_list"

/-- `trd_dates.get(f'trd_date_{the_year}_list', [])`.  A missing key and a
present empty list are both the empty list, exactly as the guards
`if not trdDateList` / `if not new_trdDateList` conflate them. -/
def getTrdList (t : TrdTable) (year : Int) : List Int :=
  (dget t (trdKey year)).getD []

/-- Python list subscription `l[i]`, including negative-index wrapping. -/
def pyGet (l : List Int) (i : Int) : Option Int :=
  if 0 ≤ i then l[i.toNat]?
  else if 0 ≤ (l.length : Int) + i then l[((l.length : Int) + i).toNat]?
  else none

/-- `next_trd_date` from playbook.py (identical in the mds and oes
scripts): the next trading day strictly after `date`, with rollover to
year+1 at or past the last listed day, and one-day stepping otherwise. -/
def next_trd_date (t : TrdTable) (date : Int) (the_year : Int) :
    Except Err String :=
  if date = 0 then
    Except.error Err.invalidDate
  else if getTrdList t the_year = [] then
    Except.error (Err.calendarGap the_year)
  else if (getTrdList t the_year).getLastD 0 ≤ date then
    if getTrdList t (the_year + 1) = [] then
      Except.error (Err.calendarGap (the_year + 1))
    else
      Except.ok (toString ((getTrdList t (the_year + 1)).headD 0))
  else if date ∈ getTrdList t the_year then
    match (getTrdList t the_year)[(getTrdList t the_year).indexOf date + 1]? with
    | some v => Except.ok (toString v)
    | none => Except.error Err.indexErr
  else if (date + 1) ∈ getTrdList t the_year then
    Except.ok (toString (date + 1))
  else
    next_trd_date t (date + 1) the_year
termination_by ((getTrdList t the_year).getLastD 0 - date).toNat
decreasing_by
  simp_wf
  simp only [List.getLastD_eq_getLast?] at *
  omega

/-- `pre_trd_date` from playbook.py: the previous trading day strictly
before `date`, mirrored.  The index access `trdDateList[index - 1]` uses
Python subscription (`pyGet`), so a hypothetical index 0 would wrap. -/
def pre_trd_date (t : TrdTable) (date : Int) (the_year : Int) :
    Except Err String :=
  if date = 0 then
    Except.error Err.invalidDate
  else if getTrdList t the_year = [] then
    Except.error (Err.calendarGap the_year)
  else if date ≤ (getTrdList t the_year).headD 0 then
    if getTrdList t (the_year - 1) = [] then
      Except.error (Err.calendarGap (the_year - 1))
    else
      Except.ok (toString ((getTrdList t (the_year - 1)).getLastD 0))
  else if date ∈ getTrdList t the_year then
    match pyGet (getTrdList t the_year)
        (((getTrdList t the_year).indexOf date : Int) - 1) with
    | some v => Except.ok (toString v)
    | none => Except.error Err.indexErr
  else if (date - 1) ∈ getTrdList t the_year then
    Except.ok (toString (date - 1))
  else
    pre_trd_date t (date - 1) the_year
termination_by (date - (getTrdList t the_year).headD 0).toNat
decreasing_by
  simp_wf
  simp only [List.headD_eq_head?] at *
  omega

example : next_trd_date [("trd_date_2024_list", [20240102, 20240103, 20240105])] 20240103 2024 =
    Except.ok "20240105" := by
  rw [next_trd_date]; decide

example : pre_trd_date [("trd_date_2024_list", [20240102, 20240103, 20240105])] 20240105 2024 =
    Except.ok "20240103" := by
  rw [pre_trd_date]; decide

/-! ## Helper lemmas about lists -/

lemma getLastD_of_ne_nil {l : List Int} (h : l ≠ []) : l.getLastD 0 = l.getLast h := by
  cases l with
  | nil => exact absurd rfl h
  | cons x xs => simp [List.getLastD_eq_getLast?, List.getLast?_eq_getLast]

lemma getLastD_mem {l : List Int} (h : l ≠ []) : l.getLastD 0 ∈ l := by
  rw [getLastD_of_ne_nil h]
  exact List.getLast_mem h

/-- In a strictly ascending list, the entry at the successor position is
the least element strictly greater than the entry before it. -/
lemma sorted_succ_least (L : List Int) (hs : L.Sorted (· < ·))
    (i j : Fin L.length) (hij : j.val = i.val + 1) :
    L.get i < L.get j ∧ ∀ x ∈ L, L.get i < x → L.get j ≤ x := by
  have hpair := List.pairwise_iff_get.mp hs
  refine ⟨hpair i j (by omega), ?_⟩
  intro x hx hlt
  obtain ⟨k, hk⟩ := List.mem_iff_get.mp hx
  rcases Nat.lt_or_ge k.val j.val with hkj | hkj
  · exfalso
    rcases Nat.lt_or_ge k.val i.val with hki | hki
    · have h2 := hpair k i (by omega)
      rw [hk] at h2
      exact absurd hlt (not_lt.mpr (le_of_lt h2))
    · have hk_eq : k = i := Fin.ext (by omega)
      rw [hk_eq] at hk
      rw [hk] at hlt
      exact lt_irrefl x hlt
  · rcases Nat.lt_or_ge j.val k.val with hjk | hjk
    · have h2 := hpair j k (by omega)
      rw [hk] at h2
      exact le_of_lt h2
    · have hk_eq : k = j := Fin.ext (by omega)
      rw [hk_eq] at hk
      exact le_of_eq hk

/-- The in-year index step of `next_trd_date`: for a member date strictly
below the last listed day, the code returns the entry at `index(date)+1`. -/
lemma next_trd_date_of_mem (t : TrdTable) (y date : Int)
    (h0 : date ≠ 0)
    (hmem : date ∈ getTrdList t y)
    (hlt : date < (getTrdList t y).getLastD 0) :
    ∃ hidx : (getTrdList t y).indexOf date + 1 < (getTrdList t y).length,
      next_trd_date t date y =
        Except.ok (toString ((getTrdList t y).get
          ⟨(getTrdList t y).indexOf date + 1, hidx⟩)) := by
  have hne : getTrdList t y ≠ [] := by
    intro h
    rw [h] at hmem
    simp at hmem
  have hidx_lt : (getTrdList t y).indexOf date < (getTrdList t y).length :=
    List.indexOf_lt_length.mpr hmem
  have hget : (getTrdList t y).get ⟨(getTrdList t y).indexOf date, hidx_lt⟩ = date := by
    rw [List.get_eq_getElem]
    exact List.getElem_indexOf hidx_lt
  have hlen1 : (getTrdList t y).length - 1 < (getTrdList t y).length := by
    cases h : getTrdList t y with
    | nil => exact absurd h hne
    | cons a as => simp
  have hidx : (getTrdList t y).indexOf date + 1 < (getTrdList t y).length := by
    rcases Nat.lt_or_ge ((getTrdList t y).indexOf date + 1) (getTrdList t y).length with h | h
    · exact h
    · exfalso
      have hlast : (getTrdList t y).getLast hne =
          (getTrdList t y).get ⟨(getTrdList t y).length - 1, hlen1⟩ :=
        List.getLast_eq_get _ _
      have hvals : (getTrdList t y).indexOf date = (getTrdList t y).length - 1 := by
        omega
      have hfin : (⟨(getTrdList t y).indexOf date, hidx_lt⟩ : Fin (getTrdList t y).length) =
          ⟨(getTrdList t y).length - 1, hlen1⟩ :=
        Fin.ext hvals
      rw [hfin] at hget
      rw [getLastD_of_ne_nil hne, hlast, hget] at hlt
      exact lt_irrefl date hlt
  refine ⟨hidx, ?_⟩
  rw [next_trd_date]
  rw [if_neg h0, if_neg hne, if_neg (not_le.mpr hlt), if_pos hmem,
    List.getElem?_eq_getElem hidx]
  simp only [List.get_eq_getElem]

/-- The induction behind C1: below the year's last listed day the resolver
returns the least listed day strictly greater than `date`. -/
lemma next_trd_date_least (t : TrdTable) (y : Int)
    (hs : (getTrdList t y).Sorted (· < ·)) :
    ∀ (n : Nat) (date : Int),
      ((getTrdList t y).getLastD 0 - date).toNat ≤ n →
      0 < date → date < (getTrdList t y).getLastD 0 →
      ∃ m, m ∈ getTrdList t y ∧ date < m ∧
        (∀ x ∈ getTrdList t y, date < x → m ≤ x) ∧
        next_trd_date t date y = Except.ok (toString m) := by
  intro n
  induction n with
  | zero =>
    intro date hbound hpos hlt
    omega
  | succ n ih =>
    intro date hbound hpos hlt
    have hne : getTrdList t y ≠ [] := by
      intro h
      rw [h] at hlt
      simp at hlt
      omega
    by_cases hmem : date ∈ getTrdList t y
    · obtain ⟨hidx, heq⟩ := next_trd_date_of_mem t y date (by omega) hmem hlt
      have hidxlt : (getTrdList t y).indexOf date < (getTrdList t y).length := by omega
      obtain ⟨hlt2, hleast⟩ := sorted_succ_least (getTrdList t y) hs
        ⟨(getTrdList t y).indexOf date, hidxlt⟩
        ⟨(getTrdList t y).indexOf date + 1, hidx⟩ rfl
      have hget : (getTrdList t y).get ⟨(getTrdList t y).indexOf date, hidxlt⟩ = date := by
        rw [List.get_eq_getElem]
        exact List.getElem_indexOf hidxlt
      rw [hget] at hlt2 hleast
      exact ⟨_, List.mem_iff_get.mpr
        ⟨⟨(getTrdList t y).indexOf date + 1, hidx⟩, rfl⟩, hlt2, hleast, heq⟩
    · by_cases hmem1 : (date + 1) ∈ getTrdList t y
      · refine ⟨date + 1, hmem1, by omega, ?_, ?_⟩
        · intro x _ hx
          omega
        · rw [next_trd_date]
          rw [if_neg (by omega : ¬(date = 0)), if_neg hne, if_neg (not_le.mpr hlt),
            if_neg hmem, if_pos hmem1]
      · have hlast_mem : (getTrdList t y).getLastD 0 ∈ getTrdList t y := getLastD_mem hne
        have hlt1 : date + 1 < (getTrdList t y).getLastD 0 := by
          rcases lt_or_eq_of_le (by omega : date + 1 ≤ (getTrdList t y).getLastD 0) with h | h
          · exact h
          · exact absurd (h ▸ hlast_mem) hmem1
        obtain ⟨m, hm_mem, hm_gt, hm_least, hm_eq⟩ :=
          ih (date + 1) (by omega) (by omega) hlt1
        refine ⟨m, hm_mem, by omega, ?_, ?_⟩
        · intro x hx hxgt
          rcases lt_or_eq_of_le (by omega : date + 1 ≤ x) with h | h
          · exact hm_least x hx h
          · exact absurd (h ▸ hx) hmem1
        · rw [next_trd_date]
          rw [if_neg (by omega : ¬(date = 0)), if_neg hne, if_neg (not_le.mpr hlt),
            if_neg hmem, if_neg hmem1, hm_eq]

/-! ## Claim C1 -/

/-- C1: for every calendar table whose year sequences are strictly
ascending integer lists and every nonzero date `D` (dates are
YYYYMMDD-form values, hence positive integers) strictly less than the
last trading day of `D`'s year, `next_trd_date` returns, as a decimal
string, the smallest element of that year's sequence strictly greater
than `D`; in particular, when `D` is a member of the sequence it is the
element at `index(D) + 1`. -/
theorem claim_C1 (t : TrdTable) (the_year date : Int)
    (hsorted : ∀ y, (getTrdList t y).Sorted (· < ·))
    (hpos : 0 < date)
    (hlt : date < (getTrdList t the_year).getLastD 0) :
    (∃ m, m ∈ getTrdList t the_year ∧ date < m ∧
      (∀ x ∈ getTrdList t the_year, date < x → m ≤ x) ∧
      next_trd_date t date the_year = Except.ok (toString m)) ∧
    (date ∈ getTrdList t the_year →
      next_trd_date t date the_year =
        Except.ok (toString ((getTrdList t the_year).getD
          ((getTrdList t the_year).indexOf date + 1) 0))) := by
  constructor
  · exact next_trd_date_least t the_year (hsorted the_year)
      ((getTrdList t the_year).getLastD 0 - date).toNat date le_rfl hpos hlt
  · intro hmem
    obtain ⟨hidx, heq⟩ := next_trd_date_of_mem t the_year date (by omega) hmem hlt
    rw [heq, List.getD_eq_getElem _ _ hidx, List.get_eq_getElem]

/-- A one-year table used to instantiate the calendar claims. -/
def tWit : TrdTable := [("trd_date_2024_list", [20240102, 20240103, 20240105])]

theorem claim_C1_witness :
    (∃ m, m ∈ getTrdList tWit 2024 ∧ (20240103 : Int) < m ∧
      (∀ x ∈ getTrdList tWit 2024, (20240103 : Int) < x → m ≤ x) ∧
      next_trd_date tWit 20240103 2024 = Except.ok (toString m)) ∧
    ((20240103 : Int) ∈ getTrdList tWit 2024 →
      next_trd_date tWit 20240103 2024 =
        Except.ok (toString ((getTrdList tWit 2024).getD
          ((getTrdList tWit 2024).indexOf 20240103 + 1) 0))) :=
  claim_C1 tWit 2024 20240103
    (by
      intro y
      simp only [tWit, getTrdList, dget]
      split
      · decide
      · simp)
    (by decide)
    (by decide)

/-! ## Claim C2 -/

/-- C2: for every nonzero date at or past the last element of its year's
sequence, `next_trd_date` returns the first element of year Y+1's sequence
when that sequence is present (non-empty) in the table and fails with the
calendar-gap error when it is absent; symmetrically, for every nonzero date
at or before the first element of its year's sequence, `pre_trd_date`
returns the last element of year Y-1's sequence when present and fails with
the calendar-gap error when absent. -/
theorem claim_C2 (t : TrdTable) (y date : Int) :
    (date ≠ 0 → getTrdList t y ≠ [] → (getTrdList t y).getLastD 0 ≤ date →
      (getTrdList t (y + 1) ≠ [] →
        next_trd_date t date y =
          Except.ok (toString ((getTrdList t (y + 1)).headD 0))) ∧
      (getTrdList t (y + 1) = [] →
        next_trd_date t date y = Except.error (Err.calendarGap (y + 1)))) ∧
    (date ≠ 0 → getTrdList t y ≠ [] → date ≤ (getTrdList t y).headD 0 →
      (getTrdList t (y - 1) ≠ [] →
        pre_trd_date t date y =
          Except.ok (toString ((getTrdList t (y - 1)).getLastD 0))) ∧
      (getTrdList t (y - 1) = [] →
        pre_trd_date t date y = Except.error (Err.calendarGap (y - 1)))) := by
  constructor
  · intro h0 hne hge
    constructor
    · intro hnext
      rw [next_trd_date, if_neg h0, if_neg hne, if_pos hge, if_neg hnext]
    · intro hnext
      rw [next_trd_date, if_neg h0, if_neg hne, if_pos hge, if_pos hnext]
  · intro h0 hne hle
    constructor
    · intro hprev
      rw [pre_trd_date, if_neg h0, if_neg hne, if_pos hle, if_neg hprev]
    · intro hprev
      rw [pre_trd_date, if_neg h0, if_neg hne, if_pos hle, if_pos hprev]

/-- A two-year table used to instantiate the rollover claims. -/
def tWit2 : TrdTable :=
  [("trd_date_2024_list", [20240102, 20241231]),
   ("trd_date_2025_list", [20250102, 20250103])]

theorem claim_C2_witness :
    (next_trd_date tWit2 20241231 2024 =
      Except.ok (toString ((getTrdList tWit2 (2024 + 1)).headD 0))) ∧
    (pre_trd_date tWit2 20240102 2024 =
      Except.error (Err.calendarGap (2024 - 1))) :=
  ⟨((claim_C2 tWit2 2024 20241231).1 (by decide) (by decide) (by decide)).1 (by decide),
   ((claim_C2 tWit2 2024 20240102).2 (by decide) (by decide) (by decide)).2 (by decide)⟩

/-! ## Claim C7: termination of the day-stepping recursion -/

/-- Fuel-indexed variant of `next_trd_date`: the recursion consumes one
unit of explicit fuel per one-day step; `none` models running out of fuel
before the recursion finishes on its own. -/
def nextTrdDateF (t : TrdTable) (date : Int) (the_year : Int) :
    Nat → Option (Except Err String)
  | 0 => none
  | fuel + 1 =>
    if date = 0 then
      some (Except.error Err.invalidDate)
    else if getTrdList t the_year = [] then
      some (Except.error (Err.calendarGap the_year))
    else if (getTrdList t the_year).getLastD 0 ≤ date then
      if getTrdList t (the_year + 1) = [] then
        some (Except.error (Err.calendarGap (the_year + 1)))
      else
        some (Except.ok (toString ((getTrdList t (the_year + 1)).headD 0)))
    else if date ∈ getTrdList t the_year then
      match (getTrdList t the_year)[(getTrdList t the_year).indexOf date + 1]? with
      | some v => some (Except.ok (toString v))
      | none => some (Except.error Err.indexErr)
    else if (date + 1) ∈ getTrdList t the_year then
      some (Except.ok (toString (date + 1)))
    else
      nextTrdDateF t (date + 1) the_year fuel

/-- Fuel-indexed variant of `pre_trd_date`, mirrored. -/
def preTrdDateF (t : TrdTable) (date : Int) (the_year : Int) :
    Nat → Option (Except Err String)
  | 0 => none
  | fuel + 1 =>
    if date = 0 then
      some (Except.error Err.invalidDate)
    else if getTrdList t the_year = [] then
      some (Except.error (Err.calendarGap the_year))
    else if date ≤ (getTrdList t the_year).headD 0 then
      if getTrdList t (the_year - 1) = [] then
        some (Except.error (Err.calendarGap (the_year - 1)))
      else
        some (Except.ok (toString ((getTrdList t (the_year - 1)).getLastD 0)))
    else if date ∈ getTrdList t the_year then
      match pyGet (getTrdList t the_year)
          (((getTrdList t the_year).indexOf date : Int) - 1) with
      | some v => some (Except.ok (toString v))
      | none => some (Except.error Err.indexErr)
    else if (date - 1) ∈ getTrdList t the_year then
      some (Except.ok (toString (date - 1)))
    else
      preTrdDateF t (date - 1) the_year fuel

lemma nextTrdDateF_eq (t : TrdTable) (y : Int) :
    ∀ (fuel : Nat) (date : Int),
      ((getTrdList t y).getLastD 0 - date).toNat < fuel →
      nextTrdDateF t date y fuel = some (next_trd_date t date y) := by
  intro fuel
  induction fuel with
  | zero =>
    intro date hb
    omega
  | succ fuel ih =>
    intro date hb
    rw [nextTrdDateF, next_trd_date]
    split_ifs with h1 h2 h3 h4 h5 h6
    · rfl
    · rfl
    · rfl
    · rfl
    · cases hgl : (getTrdList t y)[(getTrdList t y).indexOf date + 1]? with
      | none => rfl
      | some v => rfl
    · rfl
    · exact ih (date + 1) (by omega)

lemma preTrdDateF_eq (t : TrdTable) (y : Int) :
    ∀ (fuel : Nat) (date : Int),
      (date - (getTrdList t y).headD 0).toNat < fuel →
      preTrdDateF t date y fuel = some (pre_trd_date t date y) := by
  intro fuel
  induction fuel with
  | zero =>
    intro date hb
    omega
  | succ fuel ih =>
    intro date hb
    rw [preTrdDateF, pre_trd_date]
    split_ifs with h1 h2 h3 h4 h5 h6
    · rfl
    · rfl
    · rfl
    · rfl
    · cases hgl : pyGet (getTrdList t y)
          (((getTrdList t y).indexOf date : Int) - 1) with
      | none => rfl
      | some v => rfl
    · rfl
    · exact ih (date - 1) (by omega)

/-- C7: for every calendar table with a non-empty sequence for the queried
year and every nonzero date, the day-stepping recursion of `next_trd_date`
and `pre_trd_date` terminates: the fuel-indexed variant, which takes one
unit of fuel per one-day step, finishes (returns `some`) and agrees with
the recursive function as soon as the fuel exceeds the distance from the
date to the year-boundary element, with no assumed bound on gap lengths. -/
theorem claim_C7 (t : TrdTable) (y date : Int)
    (_h0 : date ≠ 0) (_hne : getTrdList t y ≠ []) :
    (∀ fuel : Nat, ((getTrdList t y).getLastD 0 - date).toNat < fuel →
      nextTrdDateF t date y fuel = some (next_trd_date t date y)) ∧
    (∀ fuel : Nat, (date - (getTrdList t y).headD 0).toNat < fuel →
      preTrdDateF t date y fuel = some (pre_trd_date t date y)) :=
  ⟨fun fuel hb => nextTrdDateF_eq t y fuel date hb,
   fun fuel hb => preTrdDateF_eq t y fuel date hb⟩

theorem claim_C7_witness :
    nextTrdDateF tWit 20240103 2024 3 = some (next_trd_date tWit 20240103 2024) ∧
    preTrdDateF tWit 20240103 2024 2 = some (pre_trd_date tWit 20240103 2024) :=
  ⟨(claim_C7 tWit 2024 20240103 (by decide) (by decide)).1 3 (by decide),
   (claim_C7 tWit 2024 20240103 (by decide) (by decide)).2 2 (by decide)⟩

/-! ## Python string primitives

The core string operations the scripts use (`split`, `strip`, `int(...)`)
are modelled directly on the character list of the string, following
Python semantics. -/

/-- Python single-character `s.split(c)`: split on every occurrence of the
separator, keeping empty segments (so the result always has one more
segment than there are separators). -/
def splitOnCharList (c : Char) : List Char → List (List Char)
  | [] => [[]]
  | x :: rest =>
    match splitOnCharList c rest with
    | [] => [[x]]
    | seg :: segs =>
      if x = c then [] :: seg :: segs else (x :: seg) :: segs

/-- Python `s.split(c)` for a one-character separator. -/
def pySplit (s : String) (c : Char) : List String :=
  (splitOnCharList c s.data).map String.mk

/-- The character class Python `str.strip()` removes. -/
def pyWhitespace (c : Char) : Bool :=
  c = ' ' || c = '\t' || c = '\n' || c = '\r' || c = '\x0b' || c = '\x0c'

/-- Python `s.strip()`: drop leading and trailing whitespace. -/
def pyStrip (s : String) : String :=
  String.mk (((s.data.dropWhile pyWhitespace).reverse.dropWhile pyWhitespace).reverse)

/-- Decimal digit run to a natural number; `none` when empty or not all
digits. -/
def digitsToNat (l : List Char) : Option Nat :=
  if l = [] then none
  else if l.all (fun c => c.isDigit) then
    some (l.foldl (fun acc c => acc * 10 + (c.toNat - 48)) 0)
  else none

/-- Python `int(s)` on a string: surrounding whitespace is allowed, then an
optional sign and a non-empty digit run. -/
def pyInt (s : String) : Option Int :=
  match (s.data.dropWhile pyWhitespace).reverse.dropWhile pyWhitespace |>.reverse with
  | '-' :: ds => (digitsToNat ds).map (fun n => -(n : Int))
  | '+' :: ds => (digitsToNat ds).map (fun n => (n : Int))
  | ds => (digitsToNat ds).map (fun n => (n : Int))

/-! ## The variable-building engine (`init_vars`) -/

/-- Python `int(v)`: integer conversion as applied to the values the
script can hold at `int(vars["curr_date"])`. -/
def pyIntOf (v : Value) : Except Err Int :=
  match v with
  | Value.int n => Except.ok n
  | Value.str s =>
    match pyInt s with
    | some n => Except.ok n
    | none => Except.error Err.valueErr
  | Value.bool b => Except.ok (cond b 1 0)
  | Value.map _ => Except.error Err.typeErr

/-- Python `int(vars["curr_date"][:4])`: the slice `[:4]` only exists for
strings (its first four characters); on any other value Python raises
TypeError before slicing. -/
def calcCurrYear (v : Value) : Except Err Int :=
  match v with
  | Value.str s =>
    match pyInt (String.mk (s.data.take 4)) with
    | some n => Except.ok n
    | none => Except.error Err.valueErr
  | _ => Except.error Err.typeErr

/-- Python `v in trd_year` for a `List[int]` trading list: `in` uses `==`,
under which a string or dict is never equal to an int, and a bool equals
its numeric value. -/
def valueInIntList (v : Value) (l : List Int) : Bool :=
  match v with
  | Value.int n => decide (n ∈ l)
  | Value.bool b => decide ((cond b 1 0 : Int) ∈ l)
  | _ => false

/-- The file-system and process environment the playbook scripts read.
Each `Option` field is the decoded content of one file path the script may
open (`none` models a missing file); path arithmetic is folded into the
lookup keys (`monFile` is keyed by `str(mon_id)`, `hostFile` by
`str(host_id)` as interpolated into `host_{id}.yaml`).  The remaining
fields are the process-level constants (environment variables, directory
constants, `sys.executable`, `time.strftime` output). -/
structure Env where
  colonyFile : Option VarMap
  monFile : String → Option VarMap
  hostFile : String → Option VarMap
  trdFile : Option TrdTable
  currDate : String
  jobsRecordId : Value
  jobsLogPath : String
  scriptDir : String
  playbookDir : String
  mdsDir : String
  oesDir : String
  pyExe : String

/-- `load_mon_conf` from playbook.py: load `mon.yaml` for the monitoring
host id, then the referenced `host_{host_id}.yaml`, and merge with the
host fragment winning. -/
def load_mon_conf (env : Env) (mon_id : Value) : Except Err VarMap :=
  match env.monFile (pyStr mon_id) with
  | none => Except.error Err.missingMonFile
  | some mon_vars =>
    match dget mon_vars "host_id" with
    | none => Except.error Err.keyErr
    | some hid =>
      match env.hostFile (pyStr hid) with
      | none => Except.error Err.missingMonHostFile
      | some mon_host => Except.ok (mergeMaps mon_vars mon_host)

/-- One item of the `extravars` loop: `if "=" in item`, then
`key, value = item.split("=", 1)`, i.e. the key is the part before the
first `=` and the value everything after it, and
`vars[key.strip()] = value.strip()`.  Items without `=` are skipped. -/
def applyOverrideItem (vars : VarMap) (item : String) : VarMap :=
  if item.data.contains '=' then
    dset vars (pyStrip (String.mk (item.data.takeWhile (fun ch => ch != '='))))
      (Value.str (pyStrip (String.mk ((item.data.dropWhile (fun ch => ch != '=')).drop 1))))
  else vars

/-- The `extravars` override layer of `init_vars` (lines 117-121 of the
mds script, identical in the oes script): guarded by `if extravars`, then
one pass over `extravars.split(";")`. -/
def applyOverrides (vars : VarMap) (extravars : String) : VarMap :=
  if extravars = "" then vars
  else (pySplit extravars ';').foldl applyOverrideItem vars

/-- The first half of `init_vars`, shared verbatim by the mds and oes
scripts: load `colony.yaml`, embed the monitoring host record under
`mon_host`, and apply the override string. -/
def initVarsBase (env : Env) (extravars : String) : Except Err VarMap :=
  match env.colonyFile with
  | none => Except.error Err.missingColonyFile
  | some vars0 =>
    match dget vars0 "mon_node_id" with
    | none => Except.error Err.keyErr
    | some monId =>
      match load_mon_conf env monId with
      | Except.error e => Except.error e
      | Except.ok monHost =>
        Except.ok (applyOverrides (dset vars0 "mon_host" (Value.map monHost)) extravars)

/-- `if "curr_date" not in vars: vars["curr_date"] = get_curr_date()`. -/
def stageCurrDate (env : Env) (vars : VarMap) : VarMap :=
  if (dget vars "curr_date").isSome then vars
  else dset vars "curr_date" (Value.str env.currDate)

/-- `if "next_trd_date" not in vars: vars["next_trd_date"] = ...`. -/
def stageNext (trd : TrdTable) (cdi cy : Int) (vars : VarMap) : Except Err VarMap :=
  match dget vars "next_trd_date" with
  | some _ => Except.ok vars
  | none =>
    match next_trd_date trd cdi cy with
    | Except.error e => Except.error e
    | Except.ok nd => Except.ok (dset vars "next_trd_date" (Value.str nd))

/-- `if "pre_trd_date" not in vars: vars["pre_trd_date"] = ...`. -/
def stagePre (trd : TrdTable) (cdi cy : Int) (vars : VarMap) : Except Err VarMap :=
  match dget vars "pre_trd_date" with
  | some _ => Except.ok vars
  | none =>
    match pre_trd_date trd cdi cy with
    | Except.error e => Except.error e
    | Except.ok pd => Except.ok (dset vars "pre_trd_date" (Value.str pd))

/-- The calendar half of the mds `init_vars` (lines 122-136): require the
calendar file, default `curr_date`, parse it as int and year, fill
`next_trd_date` and `pre_trd_date` when absent, and unconditionally
assign `is_trading_day` from the Python membership test of
`vars["curr_date"]` in the integer list. -/
def initVarsCalendar (env : Env) (vars1 : VarMap) : Except Err VarMap :=
  match env.trdFile with
  | none => Except.error Err.missingTrdFile
  | some trd_dates =>
    let vars2 := stageCurrDate env vars1
    match dget vars2 "curr_date" with
    | none => Except.error Err.keyErr
    | some cdv =>
      match pyIntOf cdv with
      | Except.error e => Except.error e
      | Except.ok curr_date_int =>
        match calcCurrYear cdv with
        | Except.error e => Except.error e
        | Except.ok curr_year =>
          match stageNext trd_dates curr_date_int curr_year vars2 with
          | Except.error e => Except.error e
          | Except.ok vars3 =>
            match stagePre trd_dates curr_date_int curr_year vars3 with
            | Except.error e => Except.error e
            | Except.ok vars4 =>
              Except.ok (dset vars4 "is_trading_day"
                (Value.bool (valueInIntList cdv (getTrdList trd_dates curr_year))))

/-- The trailing unconditional assignments of the mds `init_vars`
(lines 137-142). -/
def initVarsFinal (env : Env) (vars : VarMap) : VarMap :=
  dset (dset (dset (dset (dset (dset vars
    "JOBS_RECORD_ID" env.jobsRecordId)
    "JOBS_LOG_PATH" (Value.str env.jobsLogPath))
    "local_path_script_home" (Value.str env.scriptDir))
    "local_path_playbook_home" (Value.str env.playbookDir))
    "local_path_mds_home" (Value.str env.mdsDir))
    "local_python_interpreter" (Value.str env.pyExe)

/-- `init_vars` of the mds script. -/
def init_vars (env : Env) (extravars : String) : Except Err VarMap :=
  match initVarsBase env extravars with
  | Except.error e => Except.error e
  | Except.ok vars1 =>
    match initVarsCalendar env vars1 with
    | Except.error e => Except.error e
    | Except.ok vars4 => Except.ok (initVarsFinal env vars4)

/-- The calendar half of the oes `init_vars` (lines 119-131): identical to
the mds version except that no `is_trading_day` assignment exists. -/
def oesInitVarsCalendar (env : Env) (vars1 : VarMap) : Except Err VarMap :=
  match env.trdFile with
  | none => Except.error Err.missingTrdFile
  | some trd_dates =>
    let vars2 := stageCurrDate env vars1
    match dget vars2 "curr_date" with
    | none => Except.error Err.keyErr
    | some cdv =>
      match pyIntOf cdv with
      | Except.error e => Except.error e
      | Except.ok curr_date_int =>
        match calcCurrYear cdv with
        | Except.error e => Except.error e
        | Except.ok curr_year =>
          match stageNext trd_dates curr_date_int curr_year vars2 with
          | Except.error e => Except.error e
          | Except.ok vars3 => stagePre trd_dates curr_date_int curr_year vars3

/-- The trailing unconditional assignments of the oes `init_vars`
(lines 132-135): only the four local-path fields; no record id or log
path is injected there. -/
def oesInitVarsFinal (env : Env) (vars : VarMap) : VarMap :=
  dset (dset (dset (dset vars
    "local_path_script_home" (Value.str env.scriptDir))
    "local_path_playbook_home" (Value.str env.playbookDir))
    "local_path_oes_home" (Value.str env.oesDir))
    "local_python_interpreter" (Value.str env.pyExe)

/-- `init_vars` of the oes script; the shared first half is `initVarsBase`
(the oes source repeats it verbatim). -/
def oes_init_vars (env : Env) (extravars : String) : Except Err VarMap :=
  match initVarsBase env extravars with
  | Except.error e => Except.error e
  | Except.ok vars1 =>
    match oesInitVarsCalendar env vars1 with
    | Except.error e => Except.error e
    | Except.ok vars4 => Except.ok (oesInitVarsFinal env vars4)

/-! ## Dictionary lemmas -/

lemma dget_dset_self {α : Type} (m : List (String × α)) (k : String) (v : α) :
    dget (dset m k v) k = some v := by
  induction m with
  | nil => simp [dget, dset]
  | cons kv rest ih =>
    obtain ⟨k2, w⟩ := kv
    by_cases h : k2 = k
    · simp [dget, dset, h]
    · simp [dget, dset, h, ih]

lemma dget_dset_ne {α : Type} (m : List (String × α)) (k key : String) (v : α)
    (h : key ≠ k) :
    dget (dset m k v) key = dget m key := by
  have hkk : k ≠ key := fun hc => h hc.symm
  induction m with
  | nil =>
    simp only [dset, dget]
    rw [if_neg hkk]
  | cons kv rest ih =>
    obtain ⟨k2, w⟩ := kv
    by_cases h2 : k2 = k
    · subst h2
      simp only [dset, if_pos rfl, dget]
      rw [if_neg hkk, if_neg hkk]
    · simp only [dset, if_neg h2, dget]
      by_cases h3 : k2 = key
      · rw [if_pos h3, if_pos h3]
      · rw [if_neg h3, if_neg h3, ih]

lemma dget_mergeMaps_not_mem {α : Type} (b : List (String × α)) (a : List (String × α))
    (key : String) (h : key ∉ b.map Prod.fst) :
    dget (mergeMaps a b) key = dget a key := by
  induction b generalizing a with
  | nil => rfl
  | cons kv rest ih =>
    obtain ⟨k2, w⟩ := kv
    simp only [List.map_cons, List.mem_cons] at h
    push_neg at h
    have step : mergeMaps a ((k2, w) :: rest) = mergeMaps (dset a k2 w) rest := rfl
    rw [step, ih (dset a k2 w) h.2, dget_dset_ne _ _ _ _ h.1]

/-- On a key collision, the second argument of `{**a, **b}` wins: any
binding present in `b` is a binding of the merge (for `b` with unique
keys, as decoded YAML mappings are). -/
lemma dget_mergeMaps_right {α : Type} (a b : List (String × α)) (key : String) (v : α)
    (hnodup : (b.map Prod.fst).Nodup) (h : dget b key = some v) :
    dget (mergeMaps a b) key = some v := by
  induction b generalizing a with
  | nil => simp [dget] at h
  | cons kv rest ih =>
    obtain ⟨k2, w⟩ := kv
    simp only [List.map_cons, List.nodup_cons] at hnodup
    have step : mergeMaps a ((k2, w) :: rest) = mergeMaps (dset a k2 w) rest := rfl
    rw [step]
    by_cases h2 : k2 = key
    · subst h2
      simp only [dget, if_pos rfl] at h
      cases h
      rw [dget_mergeMaps_not_mem rest _ k2 hnodup.1, dget_dset_self]
    · simp only [dget, if_neg h2] at h
      exact ih (dset a k2 w) hnodup.2 h

/-! ## Claim C4 -/

/-- C4: the override layer splits the override string on `;`, splits each
entry on the first `=` only, trims surrounding whitespace from key and
value, overwrites any existing key, and silently skips entries without
`=`: the base `region=A` with override string `region=B;extra=1` yields
`region=B` and `extra=1`, a malformed entry raises no error and changes
nothing, the entry ` k = v ` is trimmed to the pair `k`, `v`, and
`k=v=w` binds `k` to `v=w`. -/
theorem claim_C4 (m : VarMap) :
    (dget m "region" = some (Value.str "A") →
      dget (applyOverrides m "region=B;extra=1") "region" = some (Value.str "B") ∧
      dget (applyOverrides m "region=B;extra=1") "extra" = some (Value.str "1")) ∧
    applyOverrides m "region=B;junk;extra=1" =
      dset (dset m "region" (Value.str "B")) "extra" (Value.str "1") ∧
    applyOverrides m " k = v " = dset m "k" (Value.str "v") ∧
    applyOverrides m "k=v=w" = dset m "k" (Value.str "v=w") := by
  refine ⟨?_, ?_, ?_, ?_⟩
  · intro _
    have heq : applyOverrides m "region=B;extra=1" =
        dset (dset m "region" (Value.str "B")) "extra" (Value.str "1") := rfl
    rw [heq]
    constructor
    · rw [dget_dset_ne _ _ _ _ (by decide), dget_dset_self]
    · rw [dget_dset_self]
  · rfl
  · rfl
  · rfl

theorem claim_C4_witness :
    dget (applyOverrides [("region", Value.str "A")] "region=B;extra=1") "region" =
      some (Value.str "B") ∧
    dget (applyOverrides [("region", Value.str "A")] "region=B;extra=1") "extra" =
      some (Value.str "1") :=
  (claim_C4 [("region", Value.str "A")]).1 rfl

/-! ## The host-map builder (`init_hosts`) -/

/-- One directory entry of the cluster configuration root, as
`conf_path.iterdir()` yields it: its name, whether it is a directory, and
the decoded content of its `node.yaml` (`none` when that file is absent;
the script opens it without an existence check, so absence raises). -/
structure DirEntry where
  name : String
  isDir : Bool
  nodeYaml : Option VarMap

abbrev HostsMap := List (String × VarMap)

/-- The loop guard of `init_hosts`:
`path.is_dir() and path.name in ("host_01", "host_02", "host_03")`. -/
def recognizedEntry (e : DirEntry) : Prop :=
  e.isDir = true ∧ e.name ∈ (["host_01", "host_02", "host_03"] : List String)

instance (e : DirEntry) : Decidable (recognizedEntry e) := by
  unfold recognizedEntry
  infer_instance

/-- The loop body of `init_hosts`, over the remaining directory entries.
`clusterType` is the fixed prefix of the synthesized host name (`mds` in
the mds script, `oes` in the oes script). -/
def init_hosts_go (env : Env) (clusterType colony_num : String) (acc : HostsMap) :
    List DirEntry → Except Err HostsMap
  | [] => Except.ok acc
  | e :: rest =>
    if recognizedEntry e then
      match e.nodeYaml with
      | none => Except.error Err.missingNodeFile
      | some node_data =>
        match dget node_data "host_id" with
        | none => Except.error Err.keyErr
        | some hid =>
          match env.hostFile (pyStr hid) with
          | none => Except.error Err.missingNodeHostFile
          | some host_data =>
            match dget node_data "node_role" with
            | none => Except.error Err.keyErr
            | some role =>
              init_hosts_go env clusterType colony_num
                (dset acc (clusterType ++ "_" ++ colony_num ++ "_" ++ pyStr role)
                  (mergeMaps node_data host_data)) rest
    else
      init_hosts_go env clusterType colony_num acc rest

/-- `init_hosts` from playbook.py: fold over the entries of the cluster
configuration root, keeping only directories named `host_01`, `host_02`
or `host_03`. -/
def init_hosts (env : Env) (clusterType colony_num : String)
    (entries : List DirEntry) : Except Err HostsMap :=
  init_hosts_go env clusterType colony_num [] entries

lemma init_hosts_go_skip (env : Env) (ct cn : String) (acc : HostsMap)
    (e : DirEntry) (rest : List DirEntry) (h : ¬recognizedEntry e) :
    init_hosts_go env ct cn acc (e :: rest) = init_hosts_go env ct cn acc rest := by
  rw [init_hosts_go, if_neg h]

lemma init_hosts_go_middle (env : Env) (ct cn : String) (e : DirEntry)
    (h : ¬recognizedEntry e) :
    ∀ (l1 : List DirEntry) (acc : HostsMap) (l2 : List DirEntry),
      init_hosts_go env ct cn acc (l1 ++ e :: l2) =
        init_hosts_go env ct cn acc (l1 ++ l2) := by
  intro l1
  induction l1 with
  | nil =>
    intro acc l2
    simpa using init_hosts_go_skip env ct cn acc e l2 h
  | cons d rest ih =>
    intro acc l2
    simp only [List.cons_append]
    by_cases hd : recognizedEntry d
    · rw [init_hosts_go, init_hosts_go, if_pos hd, if_pos hd]
      cases hny : d.nodeYaml with
      | none => simp only [hny]
      | some nd =>
        simp only [hny]
        cases hhid : dget nd "host_id" with
        | none => simp only [hhid]
        | some hid =>
          simp only [hhid]
          cases hhf : env.hostFile (pyStr hid) with
          | none => simp only [hhf]
          | some hd2 =>
            simp only [hhf]
            cases hrole : dget nd "node_role" with
            | none => simp only [hrole]
            | some role =>
              simp only [hrole]
              exact ih _ _
    · rw [init_hosts_go, init_hosts_go, if_neg hd, if_neg hd]
      exact ih _ _

/-! ## Claim C5 -/

/-- C5: `init_hosts` considers exactly the three recognized node-role
directory names, silently ignoring any other entry of the cluster root;
each recognized directory's role fragment is merged with the referenced
host fragment with the host fragment winning on key collisions, and the
merged record is inserted under `{cluster-type}_{cluster-id}_{role}`. -/
theorem claim_C5 :
    (∀ (env : Env) (ct cn : String) (l1 l2 : List DirEntry) (e : DirEntry),
      ¬recognizedEntry e →
      init_hosts env ct cn (l1 ++ e :: l2) = init_hosts env ct cn (l1 ++ l2)) ∧
    (∀ (env : Env) (ct cn : String) (e : DirEntry) (node_data host_data : VarMap)
      (hid role : Value),
      recognizedEntry e →
      e.nodeYaml = some node_data →
      dget node_data "host_id" = some hid →
      env.hostFile (pyStr hid) = some host_data →
      dget node_data "node_role" = some role →
      init_hosts env ct cn [e] =
        Except.ok [(ct ++ "_" ++ cn ++ "_" ++ pyStr role,
          mergeMaps node_data host_data)]) ∧
    (∀ (a b : VarMap) (key : String) (v : Value),
      (b.map Prod.fst).Nodup → dget b key = some v →
      dget (mergeMaps a b) key = some v) := by
  refine ⟨?_, ?_, ?_⟩
  · intro env ct cn l1 l2 e he
    exact init_hosts_go_middle env ct cn e he l1 [] l2
  · intro env ct cn e node_data host_data hid role hrec hny hhid hhf hrole
    rw [init_hosts, init_hosts_go, if_pos hrec]
    simp only [hny, hhid, hhf, hrole]
    rfl
  · intro a b key v hnodup h
    exact dget_mergeMaps_right a b key v hnodup h

/-- Concrete instances for the host-building claims. -/
def hostC5 : VarMap := [("network_zone", Value.str "zoneB"), ("ip", Value.str "10.0.0.7")]

def nodeC5 : VarMap :=
  [("host_id", Value.int 7), ("node_role", Value.str "master"),
   ("network_zone", Value.str "zoneA")]

def envC5 : Env where
  colonyFile := none
  monFile := fun _ => none
  hostFile := fun s => if s = "7" then some hostC5 else none
  trdFile := none
  currDate := ""
  jobsRecordId := Value.int 0
  jobsLogPath := ""
  scriptDir := ""
  playbookDir := ""
  mdsDir := ""
  oesDir := ""
  pyExe := ""

def entC5 : DirEntry := { name := "host_01", isDir := true, nodeYaml := some nodeC5 }

def junkC5 : DirEntry := { name := "README", isDir := false, nodeYaml := none }

theorem claim_C5_witness :
    init_hosts envC5 "mds" "01" [entC5, junkC5] = init_hosts envC5 "mds" "01" [entC5] ∧
    init_hosts envC5 "mds" "01" [entC5] =
      Except.ok [("mds" ++ "_" ++ "01" ++ "_" ++ pyStr (Value.str "master"),
        mergeMaps nodeC5 hostC5)] ∧
    dget (mergeMaps nodeC5 hostC5) "network_zone" = some (Value.str "zoneB") := by
  refine ⟨?_, ?_, ?_⟩
  · exact claim_C5.1 envC5 "mds" "01" [entC5] [] junkC5 (by decide)
  · exact claim_C5.2.1 envC5 "mds" "01" entC5 nodeC5 hostC5 (Value.int 7)
      (Value.str "master") (by decide) rfl rfl rfl rfl
  · exact claim_C5.2.2 nodeC5 hostC5 "network_zone" (Value.str "zoneB")
      (by decide) rfl

lemma length_dset {α : Type} (l : List (String × α)) (k : String) (v : α) :
    (dset l k v).length ≤ l.length + 1 := by
  induction l with
  | nil => simp [dset]
  | cons kv rest ih =>
    obtain ⟨k2, w⟩ := kv
    by_cases h : k2 = k
    · simp [dset, h]
    · simp only [dset, if_neg h, List.length_cons]
      omega

lemma init_hosts_go_length (env : Env) (ct cn : String) :
    ∀ (entries : List DirEntry) (acc m : HostsMap),
      init_hosts_go env ct cn acc entries = Except.ok m →
      m.length ≤ acc.length +
        (entries.filter (fun e => decide (recognizedEntry e))).length := by
  intro entries
  induction entries with
  | nil =>
    intro acc m h
    cases h
    simp
  | cons e rest ih =>
    intro acc m h
    by_cases he : recognizedEntry e
    · rw [init_hosts_go, if_pos he] at h
      cases hny : e.nodeYaml with
      | none =>
        simp only [hny] at h
        exact Except.noConfusion h
      | some nd =>
        simp only [hny] at h
        cases hhid : dget nd "host_id" with
        | none =>
          simp only [hhid] at h
          exact Except.noConfusion h
        | some hid =>
          simp only [hhid] at h
          cases hhf : env.hostFile (pyStr hid) with
          | none =>
            simp only [hhf] at h
            exact Except.noConfusion h
          | some hd2 =>
            simp only [hhf] at h
            cases hrole : dget nd "node_role" with
            | none =>
              simp only [hrole] at h
              exact Except.noConfusion h
            | some role =>
              simp only [hrole] at h
              have hlen := ih _ m h
              have hset := length_dset acc
                (ct ++ "_" ++ cn ++ "_" ++ pyStr role) (mergeMaps nd hd2)
              have hfl : List.filter (fun e => decide (recognizedEntry e)) (e :: rest) =
                  e :: List.filter (fun e => decide (recognizedEntry e)) rest := by
                simp [List.filter_cons, he]
              rw [hfl]
              simp only [List.length_cons]
              omega
    · rw [init_hosts_go_skip env ct cn acc e rest he] at h
      have hlen := ih acc m h
      have hf : (List.filter (fun e => decide (recognizedEntry e)) (e :: rest)) =
          List.filter (fun e => decide (recognizedEntry e)) rest := by
        simp [List.filter_cons, he]
      rw [hf]
      exact hlen

lemma filter_recognized_le_three (entries : List DirEntry)
    (h : (entries.map DirEntry.name).Nodup) :
    (entries.filter (fun e => decide (recognizedEntry e))).length ≤ 3 := by
  have hsub : List.Sublist
      ((entries.filter (fun e => decide (recognizedEntry e))).map DirEntry.name)
      (entries.map DirEntry.name) :=
    (List.filter_sublist entries).map _
  have hnodup : ((entries.filter (fun e => decide (recognizedEntry e))).map
      DirEntry.name).Nodup := h.sublist hsub
  have hss : ((entries.filter (fun e => decide (recognizedEntry e))).map
      DirEntry.name) ⊆ ["host_01", "host_02", "host_03"] := by
    intro x hx
    simp only [List.mem_map] at hx
    obtain ⟨e, he, hxe⟩ := hx
    have hrec := List.of_mem_filter he
    simp only [decide_eq_true_eq] at hrec
    rw [← hxe]
    exact hrec.2
  have hle := (hnodup.subperm hss).length_le
  simpa using hle

/-! ## Claim C10 -/

/-- Concrete instances for the duplicate-role scenario: two recognized
node directories whose fragments declare the same `node_role`. -/
def nodeC10a : VarMap := [("host_id", Value.int 1), ("node_role", Value.str "master")]

def nodeC10b : VarMap := [("host_id", Value.int 2), ("node_role", Value.str "master")]

def hostC10a : VarMap := [("ip", Value.str "10.0.0.1")]

def hostC10b : VarMap := [("ip", Value.str "10.0.0.2")]

def envC10 : Env where
  colonyFile := none
  monFile := fun _ => none
  hostFile := fun s => if s = "1" then some hostC10a else if s = "2" then some hostC10b else none
  trdFile := none
  currDate := ""
  jobsRecordId := Value.int 0
  jobsLogPath := ""
  scriptDir := ""
  playbookDir := ""
  mdsDir := ""
  oesDir := ""
  pyExe := ""

def entC10a : DirEntry := { name := "host_01", isDir := true, nodeYaml := some nodeC10a }

def entC10b : DirEntry := { name := "host_02", isDir := true, nodeYaml := some nodeC10b }

/-- C10: the host map built by `init_hosts` has at most three entries
(directory names are unique on a file system, and only three names are
recognized), and when two recognized directories declare the same
`node_role` the record of the directory iterated later silently
overwrites the earlier one under the shared synthesized name, so a
declared node is dropped from the inventory without any error. -/
theorem claim_C10 :
    (∀ (env : Env) (ct cn : String) (entries : List DirEntry) (m : HostsMap),
      (entries.map DirEntry.name).Nodup →
      init_hosts env ct cn entries = Except.ok m →
      m.length ≤ 3) ∧
    (init_hosts envC10 "mds" "01" [entC10a, entC10b] =
      Except.ok [("mds_01_master", mergeMaps nodeC10b hostC10b)] ∧
    dget (mergeMaps nodeC10b hostC10b) "ip" = some (Value.str "10.0.0.2")) := by
  refine ⟨?_, rfl, rfl⟩
  intro env ct cn entries m hnodup h
  have h1 := init_hosts_go_length env ct cn entries [] m h
  have h2 := filter_recognized_le_three entries hnodup
  simp only [List.length_nil] at h1
  omega

theorem claim_C10_witness :
    ([("mds_01_master", mergeMaps nodeC10b hostC10b)] : HostsMap).length ≤ 3 :=
  claim_C10.1 envC10 "mds" "01" [entC10a, entC10b] _ (by decide) rfl

/-! ## Structure of successful `init_vars` runs -/

lemma init_vars_ok_shape (env : Env) (extravars : String) (r : VarMap)
    (h : init_vars env extravars = Except.ok r) :
    ∃ v1 v4, initVarsCalendar env v1 = Except.ok v4 ∧ r = initVarsFinal env v4 := by
  rw [init_vars] at h
  cases hb : initVarsBase env extravars with
  | error e =>
    simp only [hb] at h
    exact Except.noConfusion h
  | ok v1 =>
    simp only [hb] at h
    cases hc : initVarsCalendar env v1 with
    | error e =>
      simp only [hc] at h
      exact Except.noConfusion h
    | ok v4 =>
      simp only [hc] at h
      exact ⟨v1, v4, hc, (Except.ok.inj h).symm⟩

lemma oes_init_vars_ok_shape (env : Env) (extravars : String) (r : VarMap)
    (h : oes_init_vars env extravars = Except.ok r) :
    ∃ v4, r = oesInitVarsFinal env v4 := by
  rw [oes_init_vars] at h
  cases hb : initVarsBase env extravars with
  | error e =>
    simp only [hb] at h
    exact Except.noConfusion h
  | ok v1 =>
    simp only [hb] at h
    cases hc : oesInitVarsCalendar env v1 with
    | error e =>
      simp only [hc] at h
      exact Except.noConfusion h
    | ok v4 =>
      simp only [hc] at h
      exact ⟨v4, (Except.ok.inj h).symm⟩

/-- Every successful run of the calendar half ends with the unconditional
`is_trading_day` assignment, and the assigned value is always `false`:
the membership test compares `vars["curr_date"]` with a list of integers,
and on every path that survives `int(vars["curr_date"][:4])` the value of
`curr_date` is a string, which Python `==` never equates with an int. -/
lemma initVarsCalendar_is_trading_day (env : Env) (v1 v4 : VarMap)
    (h : initVarsCalendar env v1 = Except.ok v4) :
    ∃ v3, v4 = dset v3 "is_trading_day" (Value.bool false) := by
  rw [initVarsCalendar] at h
  cases htrd : env.trdFile with
  | none =>
    simp only [htrd] at h
    exact Except.noConfusion h
  | some trd =>
    simp only [htrd] at h
    cases hcd : dget (stageCurrDate env v1) "curr_date" with
    | none =>
      simp only [hcd] at h
      exact Except.noConfusion h
    | some cdv =>
      simp only [hcd] at h
      cases hint : pyIntOf cdv with
      | error e =>
        simp only [hint] at h
        exact Except.noConfusion h
      | ok cdi =>
        simp only [hint] at h
        cases hyear : calcCurrYear cdv with
        | error e =>
          simp only [hyear] at h
          exact Except.noConfusion h
        | ok cy =>
          simp only [hyear] at h
          cases hnx : stageNext trd cdi cy (stageCurrDate env v1) with
          | error e =>
            simp only [hnx] at h
            exact Except.noConfusion h
          | ok v3 =>
            simp only [hnx] at h
            cases hpr : stagePre trd cdi cy v3 with
            | error e =>
              simp only [hpr] at h
              exact Except.noConfusion h
            | ok v4x =>
              simp only [hpr] at h
              have hfalse : valueInIntList cdv (getTrdList trd cy) = false := by
                cases cdv with
                | str s => rfl
                | int n => simp [calcCurrYear] at hyear
                | bool b => simp [calcCurrYear] at hyear
                | map l => simp [calcCurrYear] at hyear
              refine ⟨v4x, ?_⟩
              rw [← Except.ok.inj h, hfalse]

lemma dget_initVarsFinal (env : Env) (v : VarMap) :
    dget (initVarsFinal env v) "JOBS_RECORD_ID" = some env.jobsRecordId ∧
    dget (initVarsFinal env v) "JOBS_LOG_PATH" = some (Value.str env.jobsLogPath) ∧
    dget (initVarsFinal env v) "local_path_script_home" = some (Value.str env.scriptDir) ∧
    dget (initVarsFinal env v) "local_path_playbook_home" = some (Value.str env.playbookDir) ∧
    dget (initVarsFinal env v) "local_path_mds_home" = some (Value.str env.mdsDir) ∧
    dget (initVarsFinal env v) "local_python_interpreter" = some (Value.str env.pyExe) := by
  rw [initVarsFinal]
  refine ⟨?_, ?_, ?_, ?_, ?_, ?_⟩
  · rw [dget_dset_ne _ _ _ _ (by decide), dget_dset_ne _ _ _ _ (by decide),
      dget_dset_ne _ _ _ _ (by decide), dget_dset_ne _ _ _ _ (by decide),
      dget_dset_ne _ _ _ _ (by decide), dget_dset_self]
  · rw [dget_dset_ne _ _ _ _ (by decide), dget_dset_ne _ _ _ _ (by decide),
      dget_dset_ne _ _ _ _ (by decide), dget_dset_ne _ _ _ _ (by decide), dget_dset_self]
  · rw [dget_dset_ne _ _ _ _ (by decide), dget_dset_ne _ _ _ _ (by decide),
      dget_dset_ne _ _ _ _ (by decide), dget_dset_self]
  · rw [dget_dset_ne _ _ _ _ (by decide), dget_dset_ne _ _ _ _ (by decide), dget_dset_self]
  · rw [dget_dset_ne _ _ _ _ (by decide), dget_dset_self]
  · rw [dget_dset_self]

lemma dget_oesInitVarsFinal (env : Env) (v : VarMap) :
    dget (oesInitVarsFinal env v) "local_path_script_home" = some (Value.str env.scriptDir) ∧
    dget (oesInitVarsFinal env v) "local_path_playbook_home" = some (Value.str env.playbookDir) ∧
    dget (oesInitVarsFinal env v) "local_path_oes_home" = some (Value.str env.oesDir) ∧
    dget (oesInitVarsFinal env v) "local_python_interpreter" = some (Value.str env.pyExe) := by
  rw [oesInitVarsFinal]
  refine ⟨?_, ?_, ?_, ?_⟩
  · rw [dget_dset_ne _ _ _ _ (by decide), dget_dset_ne _ _ _ _ (by decide),
      dget_dset_ne _ _ _ _ (by decide), dget_dset_self]
  · rw [dget_dset_ne _ _ _ _ (by decide), dget_dset_ne _ _ _ _ (by decide), dget_dset_self]
  · rw [dget_dset_ne _ _ _ _ (by decide), dget_dset_self]
  · rw [dget_dset_self]

lemma dget_initVarsFinal_is_trading_day (env : Env) (v : VarMap) :
    dget (initVarsFinal env v) "is_trading_day" = dget v "is_trading_day" := by
  rw [initVarsFinal, dget_dset_ne _ _ _ _ (by decide), dget_dset_ne _ _ _ _ (by decide),
    dget_dset_ne _ _ _ _ (by decide), dget_dset_ne _ _ _ _ (by decide),
    dget_dset_ne _ _ _ _ (by decide), dget_dset_ne _ _ _ _ (by decide)]

/-! ## A concrete successful run -/

/-- A one-year calendar listing three consecutive trading days. -/
def trdW : TrdTable := [("trd_date_2024_list", [20240102, 20240103, 20240104])]

/-- A complete, consistent environment: every file the scripts read is
present, and the current date (a trading day) is defaulted from the
clock. -/
def envW : Env where
  colonyFile := some [("mon_node_id", Value.int 1)]
  monFile := fun s => if s = "1" then some [("host_id", Value.int 1)] else none
  hostFile := fun s => if s = "1" then some [("zone", Value.str "z")] else none
  trdFile := some trdW
  currDate := "20240103"
  jobsRecordId := Value.int 5
  jobsLogPath := "/log/run.log"
  scriptDir := "/base/resource/script"
  playbookDir := "/base/resource/playbook"
  mdsDir := "/base/storage/mds"
  oesDir := "/base/storage/oes"
  pyExe := "/usr/bin/python3"

def varsBaseW : VarMap :=
  [("mon_node_id", Value.int 1),
   ("mon_host", Value.map [("host_id", Value.int 1), ("zone", Value.str "z")])]

def varsW2 : VarMap := stageCurrDate envW varsBaseW

def varsW3 : VarMap := dset varsW2 "next_trd_date" (Value.str "20240104")

def varsW4 : VarMap := dset varsW3 "pre_trd_date" (Value.str "20240102")

/-- The full variable set the mds `init_vars` produces on `envW`. -/
def mdsResW : VarMap := initVarsFinal envW (dset varsW4 "is_trading_day" (Value.bool false))

/-- The full variable set the oes `init_vars` produces on `envW`. -/
def oesResW : VarMap := oesInitVarsFinal envW varsW4

lemma next_trd_date_W : next_trd_date trdW 20240103 2024 = Except.ok "20240104" := by
  rw [next_trd_date]
  decide

lemma pre_trd_date_W : pre_trd_date trdW 20240103 2024 = Except.ok "20240102" := by
  rw [pre_trd_date]
  decide

lemma stageNext_W : stageNext trdW 20240103 2024 varsW2 = Except.ok varsW3 := by
  rw [stageNext, next_trd_date_W]
  rfl

lemma stagePre_W : stagePre trdW 20240103 2024 varsW3 = Except.ok varsW4 := by
  rw [stagePre, pre_trd_date_W]
  rfl

lemma initVarsCalendar_W :
    initVarsCalendar envW varsBaseW =
      Except.ok (dset varsW4 "is_trading_day" (Value.bool false)) := by
  have hstep : initVarsCalendar envW varsBaseW =
      (match stageNext trdW 20240103 2024 varsW2 with
        | Except.error e => Except.error e
        | Except.ok v3 =>
          match stagePre trdW 20240103 2024 v3 with
          | Except.error e => Except.error e
          | Except.ok v4 =>
            Except.ok (dset v4 "is_trading_day"
              (Value.bool (valueInIntList (Value.str "20240103")
                (getTrdList trdW 2024))))) := rfl
  simp only [hstep, stageNext_W, stagePre_W]
  rfl

lemma init_vars_W : init_vars envW "" = Except.ok mdsResW := by
  simp only [init_vars, show initVarsBase envW "" = Except.ok varsBaseW from rfl,
    initVarsCalendar_W]
  rfl

lemma oesInitVarsCalendar_W :
    oesInitVarsCalendar envW varsBaseW = Except.ok varsW4 := by
  have hstep : oesInitVarsCalendar envW varsBaseW =
      (match stageNext trdW 20240103 2024 varsW2 with
        | Except.error e => Except.error e
        | Except.ok v3 => stagePre trdW 20240103 2024 v3) := rfl
  simp only [hstep, stageNext_W]
  exact stagePre_W

lemma oes_init_vars_W : oes_init_vars envW "" = Except.ok oesResW := by
  simp only [oes_init_vars, show initVarsBase envW "" = Except.ok varsBaseW from rfl,
    oesInitVarsCalendar_W]
  rfl

/-! ## Claim C3 -/

/-- C3 (the code contradicts the spec here): the spec says
`is_trading_day` is always recomputed and is true exactly when
`curr_date` is in its year's sequence.  What the code does: in the mds
script the field is indeed recomputed on every successful run, but its
value is always `false`, because line 136 tests the string
`vars["curr_date"]` for membership in a list of integers (and a
non-string `curr_date` crashes at `vars["curr_date"][:4]` on line 130
before the test is reached); the oes script never assigns the field at
all.  The second conjunct shows a successful oes run whose result has no
`is_trading_day` binding. -/
theorem claim_C3 :
    (∀ (env : Env) (extravars : String) (r : VarMap),
      init_vars env extravars = Except.ok r →
      dget r "is_trading_day" = some (Value.bool false)) ∧
    (oes_init_vars envW "" = Except.ok oesResW ∧
      dget oesResW "is_trading_day" = none) := by
  refine ⟨?_, oes_init_vars_W, rfl⟩
  intro env extravars r h
  obtain ⟨v1, v4, hcal, hr⟩ := init_vars_ok_shape env extravars r h
  obtain ⟨v3, hv4⟩ := initVarsCalendar_is_trading_day env v1 v4 hcal
  rw [hr, dget_initVarsFinal_is_trading_day, hv4, dget_dset_self]

theorem claim_C3_witness :
    (20240103 : Int) ∈ getTrdList trdW 2024 ∧
    init_vars envW "" = Except.ok mdsResW ∧
    dget mdsResW "is_trading_day" = some (Value.bool false) :=
  ⟨by decide, init_vars_W, claim_C3.1 envW "" mdsResW init_vars_W⟩

/-! ## Claim C6 -/

/-- C6: if the monitoring host's fragment file (`mon.yaml` for the
`mon_node_id` named in the cluster-wide fragment, or the per-host
fragment it references) is absent, `init_vars` fails with the
corresponding missing-file error and returns no variable set, partial or
otherwise (the `Except` result is an error, not an `ok`). -/
theorem claim_C6 :
    (∀ (env : Env) (extravars : String) (c : VarMap) (mid : Value),
      env.colonyFile = some c →
      dget c "mon_node_id" = some mid →
      env.monFile (pyStr mid) = none →
      init_vars env extravars = Except.error Err.missingMonFile) ∧
    (∀ (env : Env) (extravars : String) (c mon_vars : VarMap) (mid hid : Value),
      env.colonyFile = some c →
      dget c "mon_node_id" = some mid →
      env.monFile (pyStr mid) = some mon_vars →
      dget mon_vars "host_id" = some hid →
      env.hostFile (pyStr hid) = none →
      init_vars env extravars = Except.error Err.missingMonHostFile) := by
  constructor
  · intro env extravars c mid hcol hmid hmon
    rw [init_vars, initVarsBase]
    simp only [hcol, hmid, load_mon_conf, hmon]
  · intro env extravars c mon_vars mid hid hcol hmid hmon hhid hhost
    rw [init_vars, initVarsBase]
    simp only [hcol, hmid, load_mon_conf, hmon, hhid, hhost]

def envC6a : Env := { envW with monFile := fun _ => none }

def envC6b : Env := { envW with hostFile := fun _ => none }

theorem claim_C6_witness :
    init_vars envC6a "" = Except.error Err.missingMonFile ∧
    init_vars envC6b "" = Except.error Err.missingMonHostFile :=
  ⟨claim_C6.1 envC6a "" [("mon_node_id", Value.int 1)] (Value.int 1) rfl rfl rfl,
   claim_C6.2 envC6b "" [("mon_node_id", Value.int 1)] [("host_id", Value.int 1)]
     (Value.int 1) (Value.int 1) rfl rfl rfl rfl rfl⟩

/-! ## Claim C8 -/

/-- C8 (amended): in the mds `init_vars` all six environment-derived
fields (record id, log path, script/playbook/data homes, interpreter) are
assigned last and therefore present with the environment's values on
every successful run, regardless of file layers and overrides; the oes
`init_vars` injects only its four local path/interpreter fields the same
way — it never sets a record id or log path. -/
theorem claim_C8 :
    (∀ (env : Env) (extravars : String) (r : VarMap),
      init_vars env extravars = Except.ok r →
      dget r "JOBS_RECORD_ID" = some env.jobsRecordId ∧
      dget r "JOBS_LOG_PATH" = some (Value.str env.jobsLogPath) ∧
      dget r "local_path_script_home" = some (Value.str env.scriptDir) ∧
      dget r "local_path_playbook_home" = some (Value.str env.playbookDir) ∧
      dget r "local_path_mds_home" = some (Value.str env.mdsDir) ∧
      dget r "local_python_interpreter" = some (Value.str env.pyExe)) ∧
    (∀ (env : Env) (extravars : String) (r : VarMap),
      oes_init_vars env extravars = Except.ok r →
      dget r "local_path_script_home" = some (Value.str env.scriptDir) ∧
      dget r "local_path_playbook_home" = some (Value.str env.playbookDir) ∧
      dget r "local_path_oes_home" = some (Value.str env.oesDir) ∧
      dget r "local_python_interpreter" = some (Value.str env.pyExe)) := by
  constructor
  · intro env extravars r h
    obtain ⟨v1, v4, hcal, hr⟩ := init_vars_ok_shape env extravars r h
    rw [hr]
    exact dget_initVarsFinal env v4
  · intro env extravars r h
    obtain ⟨v4, hr⟩ := oes_init_vars_ok_shape env extravars r h
    rw [hr]
    exact dget_oesInitVarsFinal env v4

/-- The claim as stated is false on the oes script: a successful run in
an environment that names a log path and a record id yields a variable
set containing neither `JOBS_LOG_PATH` nor `JOBS_RECORD_ID`. -/
theorem claim_C8_counterexample :
    oes_init_vars envW "" = Except.ok oesResW ∧
    dget oesResW "JOBS_LOG_PATH" = none ∧
    dget oesResW "JOBS_RECORD_ID" = none :=
  ⟨oes_init_vars_W, rfl, rfl⟩

theorem claim_C8_witness :
    dget mdsResW "JOBS_LOG_PATH" = some (Value.str envW.jobsLogPath) ∧
    dget oesResW "local_path_oes_home" = some (Value.str envW.oesDir) :=
  ⟨(claim_C8.1 envW "" mdsResW init_vars_W).2.1,
   (claim_C8.2 envW "" oesResW oes_init_vars_W).2.2.1⟩

/-! ## Claim C9 -/

/-- C9: the calendar file is required unconditionally.  Whenever the
first half of `init_vars` succeeds (colony file, monitoring record,
overrides) but the calendar file is absent, both scripts fail with the
missing-calendar error: the existence check at lines 122-126 (mds) /
119-123 (oes) runs before any calendar-derived field is consulted, so
supplying `curr_date`, `next_trd_date` and `pre_trd_date` through the
override string does not avoid it. -/
theorem claim_C9 (env : Env) (extravars : String) (v1 : VarMap)
    (hbase : initVarsBase env extravars = Except.ok v1)
    (htrd : env.trdFile = none) :
    init_vars env extravars = Except.error Err.missingTrdFile ∧
    oes_init_vars env extravars = Except.error Err.missingTrdFile := by
  constructor
  · rw [init_vars]
    simp only [hbase, initVarsCalendar, htrd]
  · rw [oes_init_vars]
    simp only [hbase, oesInitVarsCalendar, htrd]

def envC9 : Env := { envW with trdFile := none }

theorem claim_C9_witness :
    init_vars envC9 "curr_date=20240103;next_trd_date=20240104;pre_trd_date=20240102" =
      Except.error Err.missingTrdFile ∧
    oes_init_vars envC9 "curr_date=20240103;next_trd_date=20240104;pre_trd_date=20240102" =
      Except.error Err.missingTrdFile :=
  claim_C9 envC9 "curr_date=20240103;next_trd_date=20240104;pre_trd_date=20240102" _ rfl rfl
